import Mathlib

/-!
# Verification of the task-manager gRPC service core

Shallow embedding of the in-memory `DataStore` (`src/utils/dataStore.ts`,
bundled with `src/types/index.ts`) and the `TaskServiceImpl` gRPC handlers
(`src/services/taskService.ts`) of the `task-manager-api-grpc` repository.

Modelling conventions:
* JavaScript `Date` values are epoch milliseconds, embedded as `Int`.
* A JS `Map` (which iterates in insertion order) is an association list in
  insertion order; `Map.set` on an existing key updates the value in place,
  otherwise appends.
* A JS `Set` of subscriber callbacks is a duplicate-free list in insertion
  order; callback identity is a numeric id, and the only behaviour of a
  callback the store can observe is whether invoking it raises, carried as a
  `Bool` field.  Broadcast returns the trace of successful deliveries
  (subscription key, callback id, event) plus whether an exception escaped.
* JS strings manipulated by `split`/`join`/`includes` are handled through
  their character lists, with `splitOnChar`/`joinChars` mirroring
  `String.prototype.split(sep)` / `Array.prototype.join(sep)` for one-char
  separators.
* `Array.prototype.slice(start, end)` with its negative-index clamping is
  `jsSlice`; `Array.prototype.sort` with comparator
  `(a, b) => b.created_at.getTime() - a.created_at.getTime()` is the stable
  descending insertion sort `stableSortDesc` (ECMAScript sort is stable, and
  any stable sort w.r.t. this comparator yields the same list).
* Fresh uuids and clock readings are explicit parameters (`freshId`, `now`).
-/

namespace TaskManager

/-- `TaskStatus` enum from `src/types/index.ts`. -/
inductive TaskStatus where
  | PENDING
  | IN_PROGRESS
  | COMPLETED
  | CANCELLED
deriving DecidableEq, Repr

/-- `TaskPriority` enum from `src/types/index.ts`. -/
inductive TaskPriority where
  | LOW
  | MEDIUM
  | HIGH
  | URGENT
deriving DecidableEq, Repr

/-- `Task` record from `src/types/index.ts` (`Date` as epoch ms `Int`). -/
structure Task where
  id : String
  title : String
  description : String
  status : TaskStatus
  priority : TaskPriority
  assignee_id : String
  created_at : Int
  updated_at : Int
  due_date : Option Int
  tags : List String
deriving DecidableEq, Repr

/-- `UpdateType` enum from `src/types/index.ts`. -/
inductive UpdateType where
  | CREATED
  | UPDATED
  | DELETED
deriving DecidableEq, Repr

/-- `TaskUpdate` change event from `src/types/index.ts`. -/
structure TaskUpdate where
  type : UpdateType
  task : Task
  timestamp : Int
deriving DecidableEq, Repr

/-- One registered callback in a subscriber `Set`: `cbId` is the JS closure
identity, `raises` records whether invoking the callback throws. -/
structure Subscriber where
  cbId : Nat
  raises : Bool
deriving DecidableEq, Repr

/-- `taskUpdateSubscribers : Map<string, Set<callback>>` in insertion order. -/
abbrev Registry := List (String × List Subscriber)

/-- `JWTPayload` (the fields the handlers use). -/
structure JWTPayload where
  user_id : String
  username : String
deriving DecidableEq, Repr

/-! ## Character-level models of the JS string operations -/

/-- `str.split(sep)` for a one-character separator, on the char list. -/
def splitOnChar (sep : Char) : List Char → List (List Char)
  | [] => [[]]
  | c :: rest =>
    let r := splitOnChar sep rest
    if c = sep then [] :: r
    else
      match r with
      | [] => [[c]]
      | h :: t => (c :: h) :: t

/-- `parts.join(sep)` for a one-character separator, on char lists. -/
def joinChars (sep : Char) : List (List Char) → List Char
  | [] => []
  | [x] => x
  | x :: xs => x ++ sep :: joinChars sep xs

/-! ## Subscription registry (`DataStore.subscribeToTaskUpdates` / `notifyTaskUpdate`) -/

/-- The map key built by `subscribeToTaskUpdates`:
`taskIds ? userId + ":" + taskIds.join(",") : userId` (an explicit empty
array is truthy in JS, so it still takes the filtered branch). -/
def subKey (userId : String) (taskIds : Option (List String)) : String :=
  match taskIds with
  | none => userId
  | some ids => String.mk (userId.data ++ ':' :: joinChars ',' (ids.map String.data))

/-- `Set.add`: append the callback unless already present. -/
def regAdd (reg : Registry) (key : String) (cb : Subscriber) : Registry :=
  match reg with
  | [] => [(key, [cb])]
  | (k, subs) :: rest =>
    if k = key then (k, if subs.contains cb then subs else subs ++ [cb]) :: rest
    else (k, subs) :: regAdd rest key cb

/-- `DataStore.subscribeToTaskUpdates`: register `cb` under the encoded key. -/
def subscribeToTaskUpdates (reg : Registry) (userId : String) (cb : Subscriber)
    (taskIds : Option (List String)) : Registry :=
  regAdd reg (subKey userId taskIds) cb

/-- The unsubscribe closure returned by `subscribeToTaskUpdates`: look up the
key, delete the callback from the set, and drop the key when the set is empty
(a JS `Set` holds at most one copy of a callback, so `Set.delete` removes
every occurrence). -/
def unsubscribe (reg : Registry) (key : String) (cb : Subscriber) : Registry :=
  match reg.find? (fun p => p.1 = key) with
  | none => reg
  | some (_, subs) =>
    let subs' := subs.filter (fun c => c ≠ cb)
    if subs'.isEmpty then reg.filter (fun p => p.1 ≠ key)
    else reg.map (fun p => if p.1 = key then (key, subs') else p)

/-- The per-key match test inside `notifyTaskUpdate`:
keys without `':'` are general subscriptions and match everything; otherwise
`const [, taskIds] = key.split(':')` takes the second segment, and the event
is delivered when that segment is truthy (non-empty) and
`taskIds.split(',').includes(task.id)`. -/
def keyMatches (key : String) (taskId : String) : Bool :=
  if !(key.data.contains ':') then true
  else
    match (splitOnChar ':' key.data).get? 1 with
    | none => false
    | some tids =>
      if tids = [] then false
      else (splitOnChar ',' tids).contains taskId.data

/-- Outcome of a broadcast: the trace of successful deliveries
(subscription key, callback id, event) in order, and whether an exception
escaped `notifyTaskUpdate`. -/
structure BroadcastResult where
  log : List (String × Nat × TaskUpdate)
  raised : Bool
deriving DecidableEq, Repr

/-- `subscribers.forEach(callback => callback(update))`: `Set.forEach` invokes
the callbacks in insertion order and an exception from one callback aborts the
iteration and propagates. -/
def deliverSet (key : String) (subs : List Subscriber) (u : TaskUpdate) : BroadcastResult :=
  match subs with
  | [] => { log := [], raised := false }
  | cb :: rest =>
    if cb.raises then { log := [], raised := true }
    else
      let r := deliverSet key rest u
      { log := (key, cb.cbId, u) :: r.log, raised := r.raised }

/-- `DataStore.notifyTaskUpdate`: iterate the subscriber map in insertion
order, deliver to each matching key's set; the map itself is never modified,
and an exception from a callback propagates out of the loop. -/
def notifyTaskUpdate (reg : Registry) (u : TaskUpdate) : BroadcastResult :=
  match reg with
  | [] => { log := [], raised := false }
  | (key, subs) :: rest =>
    if keyMatches key u.task.id then
      let r := deliverSet key subs u
      if r.raised then r
      else
        let r' := notifyTaskUpdate rest u
        { log := r.log ++ r'.log, raised := r'.raised }
    else notifyTaskUpdate rest u

/-! ## Record store (`DataStore` task operations) -/

/-- The store's shared mutable state: the task `Map` (insertion order) and the
subscriber registry. -/
structure StoreState where
  tasks : List (String × Task)
  registry : Registry
deriving DecidableEq, Repr

/-- `Map.get`. -/
def mapGet (m : List (String × Task)) (k : String) : Option Task :=
  (m.find? (fun p => p.1 = k)).map (fun p => p.2)

/-- `Map.set`: update in place when the key exists, else append. -/
def mapSet (m : List (String × Task)) (k : String) (v : Task) : List (String × Task) :=
  if m.any (fun p => p.1 = k) then m.map (fun p => if p.1 = k then (k, v) else p)
  else m ++ [(k, v)]

/-- `Omit<Task, 'id' | 'created_at' | 'updated_at'>`: the argument of
`DataStore.createTask`. -/
structure TaskData where
  title : String
  description : String
  status : TaskStatus
  priority : TaskPriority
  assignee_id : String
  due_date : Option Int
  tags : List String
deriving DecidableEq, Repr

/-- `Partial<Omit<Task, 'id' | 'created_at'>>` as the service layer builds it:
one optional slot per updatable field (`none` = field absent from the partial
update). -/
structure TaskUpdates where
  title : Option String
  description : Option String
  status : Option TaskStatus
  priority : Option TaskPriority
  assignee_id : Option String
  due_date : Option Int
  tags : Option (List String)
deriving DecidableEq, Repr

/-- The spread `{ ...task, ...updates, id: task.id, created_at: task.created_at,
updated_at: new Date() }` of `DataStore.updateTask`. -/
def applyUpdates (t : Task) (u : TaskUpdates) (now : Int) : Task :=
  { id := t.id
    title := u.title.getD t.title
    description := u.description.getD t.description
    status := u.status.getD t.status
    priority := u.priority.getD t.priority
    assignee_id := u.assignee_id.getD t.assignee_id
    created_at := t.created_at
    updated_at := now
    due_date := match u.due_date with | some d => some d | none => t.due_date
    tags := u.tags.getD t.tags }

namespace DataStore

/-- `DataStore.createTask`: build the record with a fresh id and current
timestamps, store it, broadcast a CREATED event. -/
def createTask (st : StoreState) (freshId : String) (now : Int) (data : TaskData) :
    Task × StoreState × BroadcastResult :=
  let task : Task :=
    { id := freshId, title := data.title, description := data.description,
      status := data.status, priority := data.priority,
      assignee_id := data.assignee_id, created_at := now, updated_at := now,
      due_date := data.due_date, tags := data.tags }
  let br := notifyTaskUpdate st.registry { type := .CREATED, task := task, timestamp := now }
  (task, { st with tasks := mapSet st.tasks freshId task }, br)

/-- `DataStore.getTask`. -/
def getTask (st : StoreState) (id : String) : Option Task :=
  mapGet st.tasks id

/-- `DataStore.updateTask`: `undefined` when the id is absent; otherwise merge
the partial update over the existing record, re-stamp `updated_at`, store,
broadcast an UPDATED event, and return the merged record. -/
def updateTask (st : StoreState) (id : String) (u : TaskUpdates) (now : Int) :
    Option Task × StoreState × BroadcastResult :=
  match mapGet st.tasks id with
  | none => (none, st, { log := [], raised := false })
  | some task =>
    let updatedTask := applyUpdates task u now
    let br := notifyTaskUpdate st.registry
      { type := .UPDATED, task := updatedTask, timestamp := now }
    (some updatedTask, { st with tasks := mapSet st.tasks id updatedTask }, br)

end DataStore

/-! ## Sorting and slicing for `DataStore.listTasks` -/

/-- Insert into a descending-by-`created_at` sorted list, after every element
with a greater-or-equal timestamp (so earlier elements keep priority: this is
the stable order ECMAScript `sort` produces for the comparator
`(a, b) => b.created_at - a.created_at`). -/
def insertByCreatedDesc (t : Task) : List Task → List Task
  | [] => [t]
  | h :: rest =>
    if h.created_at < t.created_at then t :: h :: rest
    else h :: insertByCreatedDesc t rest

/-- Stable descending sort by `created_at`. -/
def stableSortDesc (l : List Task) : List Task :=
  l.foldl (fun acc t => insertByCreatedDesc t acc) []

/-- `Array.prototype.slice(s, e)` with ECMAScript negative-index clamping. -/
def jsSlice (l : List Task) (s e : Int) : List Task :=
  let len : Int := l.length
  let s' : Int := if s < 0 then max (len + s) 0 else min s len
  let e' : Int := if e < 0 then max (len + e) 0 else min e len
  (l.take e'.toNat).drop s'.toNat

/-- The filter argument of `DataStore.listTasks`. -/
structure ListFilter where
  page : Int
  page_size : Int
  status_filter : Option TaskStatus
  priority_filter : Option TaskPriority
  assignee_filter : Option String
deriving DecidableEq, Repr

/-- The value `DataStore.listTasks` returns. -/
structure ListTasksResult where
  tasks : List Task
  total_count : Nat
  page : Int
  page_size : Int
deriving DecidableEq, Repr

/-- The three truthiness-guarded filter passes of `DataStore.listTasks`
(`if (filter.assignee_filter)` is false for the empty string; the enum string
values are all non-empty, hence truthy whenever present). -/
def applyListFilters (f : ListFilter) (allTasks : List Task) : List Task :=
  let f1 := match f.status_filter with
    | some s => allTasks.filter (fun t => decide (t.status = s))
    | none => allTasks
  let f2 := match f.priority_filter with
    | some p => f1.filter (fun t => decide (t.priority = p))
    | none => f1
  match f.assignee_filter with
  | some a => if a = "" then f2 else f2.filter (fun t => decide (t.assignee_id = a))
  | none => f2

namespace DataStore

/-- `DataStore.listTasks`: filter, stable sort by `created_at` descending,
read the total count, then slice `[(page-1)*page_size, (page-1)*page_size + page_size)`. -/
def listTasks (st : StoreState) (f : ListFilter) : ListTasksResult :=
  let sorted := stableSortDesc (applyListFilters f (st.tasks.map (fun p => p.2)))
  let startIndex := (f.page - 1) * f.page_size
  let endIndex := startIndex + f.page_size
  { tasks := jsSlice sorted startIndex endIndex,
    total_count := sorted.length,
    page := f.page,
    page_size := f.page_size }

end DataStore

/-! ## Access gate (`src/middleware/auth.ts`) -/

/-- `extractTokenFromMetadata`: case handled by `metadata.get('authorization')`
returning an array of header values; `null` when missing or empty, else the
first value with an optional leading `"Bearer "` stripped. -/
def extractTokenFromMetadata (metadata : List (String × List String)) : Option String :=
  match (metadata.find? (fun p => p.1 = "authorization")).map (fun p => p.2) with
  | none => none
  | some [] => none
  | some (token :: _) =>
    if "Bearer ".isPrefixOf token then some (String.mk (token.data.drop 7)) else some token

/-- `authenticateCall`: extract the bearer token and verify it; `verifyToken`
(the JWT signature check, an external collaborator) is passed in as a
function. -/
def authenticateCall (verifyToken : String → Option JWTPayload)
    (metadata : List (String × List String)) : Option JWTPayload :=
  match extractTokenFromMetadata metadata with
  | none => none
  | some token => verifyToken token

/-! ## gRPC service layer (`TaskServiceImpl`) -/

/-- gRPC status codes the handlers use. -/
inductive GrpcStatus where
  | OK
  | INVALID_ARGUMENT
  | UNAUTHENTICATED
  | NOT_FOUND
  | INTERNAL
deriving DecidableEq, Repr

/-- Outcome of a unary handler: the value passed to `callback`. -/
inductive SvcResult (α : Type) where
  | ok (a : α)
  | err (code : GrpcStatus)
deriving DecidableEq, Repr

/-- `CreateTaskRequest` as it reaches the handler: `title`/`description` are
strings (empty = falsy = rejected), the remaining fields may be absent. -/
structure CreateTaskRequest where
  title : String
  description : String
  priority : Option TaskPriority
  assignee_id : Option String
  due_date : Option Int
  tags : Option (List String)
deriving DecidableEq, Repr

/-- `UpdateTaskRequest`: the id plus one optional slot per updatable field. -/
structure UpdateTaskRequest where
  id : String
  title : Option String
  description : Option String
  status : Option TaskStatus
  priority : Option TaskPriority
  assignee_id : Option String
  due_date : Option Int
  tags : Option (List String)
deriving DecidableEq, Repr

/-- `ListTasksRequest`. -/
structure ListTasksRequest where
  page : Int
  page_size : Int
  status_filter : Option TaskStatus
  priority_filter : Option TaskPriority
  assignee_filter : Option String
deriving DecidableEq, Repr

/-- `SubscribeTaskUpdatesRequest`. -/
structure SubscribeTaskUpdatesRequest where
  user_id : String
  task_ids : Option (List String)
deriving DecidableEq, Repr

/-- The empty broadcast outcome (no callback was invoked). -/
def noBroadcast : BroadcastResult := { log := [], raised := false }

namespace TaskServiceImpl

/-- `TaskServiceImpl.CreateTask`: authenticate, validate `title`/`description`
(JS falsiness: the empty string is rejected), default `priority` to MEDIUM,
`assignee_id` to the caller (also when supplied but empty, `||` again), `tags`
to `[]`, then `dataStore.createTask`.  An exception escaping the store call
(e.g. a subscriber callback throwing during the CREATED broadcast) is caught
by the handler's `try/catch` and surfaces as INTERNAL; the record was already
stored at that point. -/
def CreateTask (auth : Option JWTPayload) (req : CreateTaskRequest)
    (st : StoreState) (freshId : String) (now : Int) :
    SvcResult Task × StoreState × BroadcastResult :=
  match auth with
  | none => (.err .UNAUTHENTICATED, st, noBroadcast)
  | some user =>
    if req.title = "" ∨ req.description = "" then (.err .INVALID_ARGUMENT, st, noBroadcast)
    else
      let data : TaskData :=
        { title := req.title, description := req.description,
          status := .PENDING,
          priority := req.priority.getD .MEDIUM,
          assignee_id :=
            match req.assignee_id with
            | some a => if a = "" then user.user_id else a
            | none => user.user_id,
          due_date := req.due_date,
          tags := req.tags.getD [] }
      let r := DataStore.createTask st freshId now data
      if r.2.2.raised then (.err .INTERNAL, r.2.1, r.2.2)
      else (.ok r.1, r.2.1, r.2.2)

/-- `TaskServiceImpl.UpdateTask`: authenticate, look the task up, build the
`updates` object from exactly the request fields that are present, then
`dataStore.updateTask`. -/
def UpdateTask (auth : Option JWTPayload) (req : UpdateTaskRequest)
    (st : StoreState) (now : Int) :
    SvcResult Task × StoreState × BroadcastResult :=
  match auth with
  | none => (.err .UNAUTHENTICATED, st, noBroadcast)
  | some _ =>
    match DataStore.getTask st req.id with
    | none => (.err .NOT_FOUND, st, noBroadcast)
    | some _ =>
      let updates : TaskUpdates :=
        { title := req.title, description := req.description, status := req.status,
          priority := req.priority, assignee_id := req.assignee_id,
          due_date := req.due_date, tags := req.tags }
      let r := DataStore.updateTask st req.id updates now
      match r.1 with
      | none => (.err .INTERNAL, r.2.1, r.2.2)
      | some t =>
        if r.2.2.raised then (.err .INTERNAL, r.2.1, r.2.2)
        else (.ok t, r.2.1, r.2.2)

/-- The clamp `Math.min(request.page_size || 10, 100)` of
`TaskServiceImpl.ListTasks` (`0` is falsy, any other number is truthy). -/
def effectivePageSize (ps : Int) : Int :=
  min (if ps = 0 then 10 else ps) 100

/-- `TaskServiceImpl.ListTasks`: authenticate, default `page` to 1 and clamp
`page_size`, then `dataStore.listTasks`. -/
def ListTasks (auth : Option JWTPayload) (req : ListTasksRequest)
    (st : StoreState) : SvcResult ListTasksResult :=
  match auth with
  | none => .err .UNAUTHENTICATED
  | some _ =>
    let page := if req.page = 0 then 1 else req.page
    .ok (DataStore.listTasks st
      { page := page, page_size := effectivePageSize req.page_size,
        status_filter := req.status_filter, priority_filter := req.priority_filter,
        assignee_filter := req.assignee_filter })

/-- The placeholder task of the initial connection-confirmation event written
by `TaskServiceImpl.SubscribeTaskUpdates`. -/
def connectionTask (userId : String) (now : Int) : Task :=
  { id := "connection", title := "Streaming connection established",
    description := "You are now subscribed to task updates",
    status := .COMPLETED, priority := .LOW, assignee_id := userId,
    created_at := now, updated_at := now, due_date := none, tags := ["system"] }

/-- The sink callback `SubscribeTaskUpdates` installs: `call.write(update)`
wrapped in `try/catch` that only logs, so the callback itself never raises.
`writeResult` is the outcome of the underlying stream write. -/
def sessionSink (writeResult : Except String Unit) : Except String Unit :=
  match writeResult with
  | .error _ => .ok ()
  | .ok () => .ok ()

/-- `TaskServiceImpl.SubscribeTaskUpdates`: authenticate (UNAUTHENTICATED ends
the stream with no registry interaction), register the session's callback with
`dataStore.subscribeToTaskUpdates(user.user_id, cb, request.task_ids)`, then
synchronously write the single connection-confirmation event.  Returns the
handler outcome, the new state, and the list of events written synchronously
during setup (before any real-time event). -/
def SubscribeTaskUpdates (auth : Option JWTPayload) (req : SubscribeTaskUpdatesRequest)
    (st : StoreState) (cb : Subscriber) (now : Int) :
    SvcResult Unit × StoreState × List TaskUpdate :=
  match auth with
  | none => (.err .UNAUTHENTICATED, st, [])
  | some user =>
    let reg' := subscribeToTaskUpdates st.registry user.user_id cb req.task_ids
    (.ok (), { st with registry := reg' },
      [{ type := .CREATED, task := connectionTask user.user_id now, timestamp := now }])

end TaskServiceImpl

/-! ## Spec-side reference definitions (refinement targets, from the spec's words) -/

/-- Modelled from the spec: the seeding burst §4.4 describes for
`AUTHENTICATED → STREAMING` — one CREATED-equivalent snapshot event per record
currently in the store matching the subscriber's filter (no explicit id set
matches every record; an explicit set matches records whose id is a member). -/
def specSeedingBurst (st : StoreState) (taskIds : Option (List String)) (now : Int) :
    List TaskUpdate :=
  (st.tasks.map (fun p => p.2)).filterMap (fun t =>
    match taskIds with
    | none => some { type := .CREATED, task := t, timestamp := now }
    | some ids =>
      if ids.contains t.id then some { type := .CREATED, task := t, timestamp := now }
      else none)

/-- Lexicographic order on character codes, the natural reading of the spec's
"ties broken by identifier". -/
def charListLt : List Char → List Char → Bool
  | [], [] => false
  | [], _ :: _ => true
  | _ :: _, [] => false
  | a :: as, b :: bs =>
    if a.toNat < b.toNat then true
    else if b.toNat < a.toNat then false
    else charListLt as bs

/-- Modelled from the spec: the §4.1 list ordering — creation timestamp
descending, ties broken by identifier — as a pairwise property of the returned
page. -/
def specTieBreakOrdered (l : List Task) : Prop :=
  l.Pairwise (fun a b =>
    b.created_at < a.created_at ∨
      (a.created_at = b.created_at ∧ charListLt a.id.data b.id.data = true))

instance (l : List Task) : Decidable (specTieBreakOrdered l) := by
  unfold specTieBreakOrdered
  infer_instance

/-- The conjunction of the supplied (truthy) list filters, as one predicate:
a record matches when it passes the assignee, priority and status checks that
`listTasks` applies (a missing filter — or an empty assignee string, which is
falsy — constrains nothing). -/
def matchesFilters (f : ListFilter) (t : Task) : Bool :=
  (match f.assignee_filter with
   | some a => if a = "" then true else decide (t.assignee_id = a)
   | none => true) &&
  ((match f.priority_filter with
    | some p => decide (t.priority = p)
    | none => true) &&
   (match f.status_filter with
    | some s => decide (t.status = s)
    | none => true))

/-! ## Helper lemmas: character-level string operations -/

theorem splitOnChar_ne_nil (sep : Char) (l : List Char) : splitOnChar sep l ≠ [] := by
  induction l with
  | nil => simp [splitOnChar]
  | cons c rest ih =>
    unfold splitOnChar
    by_cases h : c = sep
    · simp [h]
    · simp only [if_neg h]
      rcases hr : splitOnChar sep rest with _ | ⟨hh, tt⟩ <;> simp

theorem splitOnChar_sep_cons (sep : Char) (b : List Char) :
    splitOnChar sep (sep :: b) = [] :: splitOnChar sep b := by
  conv_lhs => rw [splitOnChar]
  simp

theorem splitOnChar_append_sepfree (sep : Char) (a b : List Char) (h : sep ∉ a) :
    splitOnChar sep (a ++ b) =
      (a ++ (splitOnChar sep b).headI) :: (splitOnChar sep b).tail := by
  induction a with
  | nil =>
    rcases hb : splitOnChar sep b with _ | ⟨hh, tt⟩
    · exact absurd hb (splitOnChar_ne_nil sep b)
    · simp [hb]
  | cons c a' ih =>
    have hc : ¬ (c = sep) := fun hcs => h (hcs ▸ List.mem_cons_self c a')
    have ha' : sep ∉ a' := fun hm => h (List.mem_cons_of_mem c hm)
    show splitOnChar sep (c :: (a' ++ b)) = _
    conv_lhs => rw [splitOnChar]
    rw [if_neg hc, ih ha']
    rfl

theorem splitOnChar_append_sep (sep : Char) (a b : List Char) (h : sep ∉ a) :
    splitOnChar sep (a ++ sep :: b) = a :: splitOnChar sep b := by
  rw [splitOnChar_append_sepfree sep a (sep :: b) h, splitOnChar_sep_cons]
  simp

theorem splitOnChar_sepfree (sep : Char) (l : List Char) (h : sep ∉ l) :
    splitOnChar sep l = [l] := by
  induction l with
  | nil => rfl
  | cons c rest ih =>
    have hc : ¬ (c = sep) := fun hcs => h (hcs ▸ List.mem_cons_self c rest)
    have hrest : sep ∉ rest := fun hm => h (List.mem_cons_of_mem c hm)
    unfold splitOnChar
    rw [if_neg hc, ih hrest]

theorem joinChars_not_mem (sep c : Char) (parts : List (List Char)) (hc : c ≠ sep)
    (h : ∀ p ∈ parts, c ∉ p) : c ∉ joinChars sep parts := by
  induction parts with
  | nil => simp [joinChars]
  | cons x xs ih =>
    rcases xs with _ | ⟨y, ys⟩
    · simpa [joinChars] using h x (by simp)
    · have hx : c ∉ x := h x (by simp)
      have hrest : c ∉ joinChars sep (y :: ys) :=
        ih (fun p hp => h p (List.mem_cons_of_mem x hp))
      simp only [joinChars, List.mem_append, List.mem_cons]
      rintro (hcx | hcs | hcj)
      · exact hx hcx
      · exact hc hcs
      · exact hrest hcj

theorem splitOnChar_joinChars (sep : Char) (parts : List (List Char)) (hne : parts ≠ [])
    (h : ∀ p ∈ parts, sep ∉ p) : splitOnChar sep (joinChars sep parts) = parts := by
  induction parts with
  | nil => exact absurd rfl hne
  | cons x xs ih =>
    rcases xs with _ | ⟨y, ys⟩
    · exact splitOnChar_sepfree sep x (h x (by simp))
    · have hx : sep ∉ x := h x (by simp)
      show splitOnChar sep (x ++ sep :: joinChars sep (y :: ys)) = _
      rw [splitOnChar_append_sep sep x _ hx,
        ih (by simp) (fun p hp => h p (List.mem_cons_of_mem x hp))]

/-! ## Helper lemmas: the key match test -/

theorem keyMatches_no_colon (key : String) (h : ':' ∉ key.data) (tid : String) :
    keyMatches key tid = true := by
  unfold keyMatches
  have hcontains : key.data.contains ':' = false := by simpa using h
  simp only [hcontains, Bool.not_false, if_true]

theorem keyMatches_subKey_empty (userId : String) (h : ':' ∉ userId.data) (tid : String) :
    keyMatches (subKey userId (some [])) tid = false := by
  have hdata : (subKey userId (some [])).data = userId.data ++ ':' :: [] := by
    simp [subKey, joinChars]
  unfold keyMatches
  rw [hdata]
  have hcontains : (userId.data ++ ':' :: []).contains ':' = true := by simp
  rw [hcontains]
  rw [splitOnChar_append_sep ':' userId.data [] h]
  simp [splitOnChar]

theorem keyMatches_subKey_some (userId : String) (ids : List String) (tid : String)
    (hu : ':' ∉ userId.data)
    (hids : ∀ s ∈ ids, ':' ∉ s.data ∧ ',' ∉ s.data)
    (hm : keyMatches (subKey userId (some ids)) tid = true) :
    tid ∈ ids := by
  have hdata : (subKey userId (some ids)).data
      = userId.data ++ ':' :: joinChars ',' (ids.map String.data) := rfl
  have hJ : ':' ∉ joinChars ',' (ids.map String.data) :=
    joinChars_not_mem ',' ':' _ (by decide) (by
      intro p hp
      rcases List.mem_map.mp hp with ⟨s, hs, rfl⟩
      exact (hids s hs).1)
  unfold keyMatches at hm
  rw [hdata] at hm
  have hcontains : (userId.data ++ ':' :: joinChars ',' (ids.map String.data)).contains ':'
      = true := by simp
  rw [hcontains] at hm
  rw [splitOnChar_append_sep ':' _ _ hu, splitOnChar_sepfree ':' _ hJ] at hm
  simp only [List.get?] at hm
  by_cases hJnil : joinChars ',' (ids.map String.data) = []
  · rw [if_pos hJnil] at hm
    exact absurd hm (by simp)
  · rw [if_neg hJnil] at hm
    have hidsne : ids ≠ [] := by
      rintro rfl
      exact hJnil rfl
    rw [splitOnChar_joinChars ',' (ids.map String.data)
      (by simpa using hidsne)
      (by
        intro p hp
        rcases List.mem_map.mp hp with ⟨s, hs, rfl⟩
        exact (hids s hs).2)] at hm
    have : tid.data ∈ ids.map String.data := by simpa using hm
    rcases List.mem_map.mp this with ⟨s, hs, hsd⟩
    exact (String.ext hsd.symm) ▸ hs

/-! ## Helper lemmas: broadcast -/

theorem deliverSet_log_shape (key : String) (subs : List Subscriber) (u : TaskUpdate) :
    ∀ e ∈ (deliverSet key subs u).log, e.1 = key ∧ e.2.2 = u ∧ ∃ c ∈ subs, c.cbId = e.2.1 := by
  induction subs with
  | nil => simp [deliverSet]
  | cons cb rest ih =>
    intro e he
    unfold deliverSet at he
    by_cases hr : cb.raises
    · simp [hr] at he
    · simp only [hr, Bool.false_eq_true, if_neg, ite_false, List.mem_cons] at he
      rcases he with rfl | he
      · exact ⟨rfl, rfl, cb, by simp⟩
      · rcases ih e he with ⟨h1, h2, c, hc, h3⟩
        exact ⟨h1, h2, c, List.mem_cons_of_mem cb hc, h3⟩

theorem notifyTaskUpdate_log_shape (reg : Registry) (u : TaskUpdate) :
    ∀ e ∈ (notifyTaskUpdate reg u).log,
      keyMatches e.1 u.task.id = true ∧ e.2.2 = u ∧
      ∃ subs, (e.1, subs) ∈ reg ∧ ∃ c ∈ subs, c.cbId = e.2.1 := by
  induction reg with
  | nil => simp [notifyTaskUpdate]
  | cons p rest ih =>
    rcases p with ⟨key, subs⟩
    intro e he
    unfold notifyTaskUpdate at he
    by_cases hk : keyMatches key u.task.id
    · simp only [hk, if_pos] at he
      by_cases hraised : (deliverSet key subs u).raised
      · rw [if_pos hraised] at he
        rcases deliverSet_log_shape key subs u e he with ⟨h1, h2, c, hc, h3⟩
        exact ⟨h1 ▸ hk, h2, subs, by simp [h1], c, hc, h3⟩
      · rw [if_neg hraised] at he
        rcases List.mem_append.mp he with hin | hin
        · rcases deliverSet_log_shape key subs u e hin with ⟨h1, h2, c, hc, h3⟩
          exact ⟨h1 ▸ hk, h2, subs, by simp [h1], c, hc, h3⟩
        · rcases ih e hin with ⟨h1, h2, s, hsin, hrest⟩
          exact ⟨h1, h2, s, List.mem_cons_of_mem _ hsin, hrest⟩
    · simp only [hk, Bool.false_eq_true, if_neg, ite_false] at he
      rcases ih e he with ⟨h1, h2, s, hsin, hrest⟩
      exact ⟨h1, h2, s, List.mem_cons_of_mem _ hsin, hrest⟩

theorem deliverSet_no_raise (key : String) (subs : List Subscriber) (u : TaskUpdate)
    (h : ∀ cb ∈ subs, cb.raises = false) :
    (deliverSet key subs u).raised = false ∧
    ∀ cb ∈ subs, (key, cb.cbId, u) ∈ (deliverSet key subs u).log := by
  induction subs with
  | nil => simp [deliverSet]
  | cons cb rest ih =>
    have hcb : cb.raises = false := h cb (by simp)
    have hrest := ih (fun c hc => h c (List.mem_cons_of_mem cb hc))
    constructor
    · simp [deliverSet, hcb, hrest.1]
    · intro c hc
      rcases List.mem_cons.mp hc with rfl | hc
      · simp [deliverSet, hcb]
      · simp only [deliverSet, hcb, Bool.false_eq_true, if_neg, ite_false, List.mem_cons]
        exact Or.inr (hrest.2 c hc)

theorem notifyTaskUpdate_no_raise (reg : Registry) (u : TaskUpdate)
    (h : ∀ p ∈ reg, ∀ cb ∈ p.2, cb.raises = false) :
    (notifyTaskUpdate reg u).raised = false ∧
    ∀ p ∈ reg, keyMatches p.1 u.task.id = true →
      ∀ cb ∈ p.2, (p.1, cb.cbId, u) ∈ (notifyTaskUpdate reg u).log := by
  induction reg with
  | nil => simp [notifyTaskUpdate]
  | cons q rest ih =>
    rcases q with ⟨key, subs⟩
    have hsubs := deliverSet_no_raise key subs u (h (key, subs) (by simp))
    have hrest := ih (fun p hp => h p (List.mem_cons_of_mem _ hp))
    by_cases hk : keyMatches key u.task.id
    · constructor
      · simp [notifyTaskUpdate, hk, hsubs.1, hrest.1]
      · intro p hp hpk cb hcb
        rcases List.mem_cons.mp hp with rfl | hp
        · simp only [notifyTaskUpdate, hk, if_pos, hsubs.1, Bool.false_eq_true, if_neg,
            ite_false, List.mem_append]
          exact Or.inl (hsubs.2 cb hcb)
        · simp only [notifyTaskUpdate, hk, if_pos, hsubs.1, Bool.false_eq_true, if_neg,
            ite_false, List.mem_append]
          exact Or.inr (hrest.2 p hp hpk cb hcb)
    · constructor
      · simp [notifyTaskUpdate, hk, hrest.1]
      · intro p hp hpk cb hcb
        rcases List.mem_cons.mp hp with rfl | hp
        · exact absurd hpk (by simpa using hk)
        · simp only [notifyTaskUpdate, hk, Bool.false_eq_true, if_neg, ite_false]
          exact hrest.2 p hp hpk cb hcb

/-! ## Helper lemmas: the task map -/

theorem find?_replace (m : List (String × Task)) (k : String) (v : Task)
    (h : ∃ p ∈ m, p.1 = k) :
    (m.map (fun p => if p.1 = k then (k, v) else p)).find? (fun p => decide (p.1 = k))
      = some (k, v) := by
  induction m with
  | nil => simp at h
  | cons q rest ih =>
    by_cases hq : q.1 = k
    · rw [List.map_cons, if_pos hq, List.find?_cons_of_pos _ (by simp)]
    · have h' : ∃ p ∈ rest, p.1 = k := by
        rcases h with ⟨p, hp, hpk⟩
        rcases List.mem_cons.mp hp with rfl | hp
        · exact absurd hpk hq
        · exact ⟨p, hp, hpk⟩
      rw [List.map_cons, if_neg hq, List.find?_cons_of_neg _ (by simpa using hq)]
      exact ih h'

theorem find?_append_fresh (m : List (String × Task)) (k : String) (v : Task)
    (h : ∀ p ∈ m, ¬ (p.1 = k)) :
    ((m ++ [(k, v)]).find? (fun p => decide (p.1 = k))) = some (k, v) := by
  induction m with
  | nil => simp [List.find?]
  | cons q rest ih =>
    have hq := h q (by simp)
    rw [List.cons_append, List.find?_cons_of_neg _ (by simpa using hq)]
    exact ih (fun p hp => h p (List.mem_cons_of_mem q hp))

theorem mapGet_mapSet_self (m : List (String × Task)) (k : String) (v : Task) :
    mapGet (mapSet m k v) k = some v := by
  unfold mapGet mapSet
  by_cases h : m.any (fun p => decide (p.1 = k))
  · rw [if_pos h, find?_replace m k v (by simpa using h)]
    rfl
  · rw [if_neg h, find?_append_fresh m k v
      (fun p hp hpk => h (List.any_eq_true.mpr ⟨p, hp, by simpa using hpk⟩))]
    rfl

/-! ## Helper lemmas: sorting, slicing, filtering -/

theorem mem_insertByCreatedDesc (t : Task) (l : List Task) (x : Task) :
    x ∈ insertByCreatedDesc t l ↔ x = t ∨ x ∈ l := by
  induction l with
  | nil => simp [insertByCreatedDesc]
  | cons hd rest ih =>
    unfold insertByCreatedDesc
    by_cases hc : hd.created_at < t.created_at
    · rw [if_pos hc]
      simp only [List.mem_cons]
    · rw [if_neg hc]
      simp only [List.mem_cons, ih]
      tauto

theorem pairwise_insertByCreatedDesc (t : Task) (l : List Task)
    (h : l.Pairwise (fun a b => b.created_at ≤ a.created_at)) :
    (insertByCreatedDesc t l).Pairwise (fun a b => b.created_at ≤ a.created_at) := by
  induction l with
  | nil => simp [insertByCreatedDesc]
  | cons hd rest ih =>
    rcases List.pairwise_cons.mp h with ⟨hhd, hrest⟩
    unfold insertByCreatedDesc
    by_cases hc : hd.created_at < t.created_at
    · rw [if_pos hc]
      refine List.pairwise_cons.mpr ⟨?_, h⟩
      intro b hb
      rcases List.mem_cons.mp hb with rfl | hb
      · exact le_of_lt hc
      · exact le_trans (hhd b hb) (le_of_lt hc)
    · rw [if_neg hc]
      refine List.pairwise_cons.mpr ⟨?_, ih hrest⟩
      intro b hb
      rcases (mem_insertByCreatedDesc t rest b).mp hb with rfl | hb
      · exact le_of_not_lt hc
      · exact hhd b hb

theorem pairwise_foldl_insert (l acc : List Task)
    (hacc : acc.Pairwise (fun a b => b.created_at ≤ a.created_at)) :
    (l.foldl (fun a t => insertByCreatedDesc t a) acc).Pairwise
      (fun a b => b.created_at ≤ a.created_at) := by
  induction l generalizing acc with
  | nil => simpa using hacc
  | cons t rest ih => exact ih _ (pairwise_insertByCreatedDesc t acc hacc)

theorem pairwise_stableSortDesc (l : List Task) :
    (stableSortDesc l).Pairwise (fun a b => b.created_at ≤ a.created_at) :=
  pairwise_foldl_insert l [] (by simp)

theorem length_insertByCreatedDesc (t : Task) (l : List Task) :
    (insertByCreatedDesc t l).length = l.length + 1 := by
  induction l with
  | nil => rfl
  | cons hd rest ih =>
    unfold insertByCreatedDesc
    by_cases hc : hd.created_at < t.created_at
    · rw [if_pos hc]
      rfl
    · rw [if_neg hc]
      simp [ih]

theorem length_foldl_insert (l acc : List Task) :
    (l.foldl (fun a t => insertByCreatedDesc t a) acc).length = acc.length + l.length := by
  induction l generalizing acc with
  | nil => simp
  | cons t rest ih =>
    rw [List.foldl_cons, ih, length_insertByCreatedDesc]
    simp only [List.length_cons]
    omega

theorem length_stableSortDesc (l : List Task) : (stableSortDesc l).length = l.length := by
  have := length_foldl_insert l []
  simpa [stableSortDesc] using this

theorem filter_insertByCreatedDesc (t : Task) (l : List Task) (c : Int)
    (hs : l.Pairwise (fun a b => b.created_at ≤ a.created_at)) :
    (insertByCreatedDesc t l).filter (fun x => decide (x.created_at = c)) =
      if t.created_at = c then
        l.filter (fun x => decide (x.created_at = c)) ++ [t]
      else l.filter (fun x => decide (x.created_at = c)) := by
  induction l with
  | nil => by_cases ht : t.created_at = c <;> simp [insertByCreatedDesc, ht]
  | cons hd rest ih =>
    rcases List.pairwise_cons.mp hs with ⟨hhd, hrest⟩
    unfold insertByCreatedDesc
    by_cases hc : hd.created_at < t.created_at
    · rw [if_pos hc]
      by_cases ht : t.created_at = c
      · have hnone : (hd :: rest).filter (fun x => decide (x.created_at = c)) = [] := by
          rw [List.filter_eq_nil_iff]
          intro x hx
          rcases List.mem_cons.mp hx with rfl | hx
          · simpa using (ne_of_lt (ht ▸ hc))
          · simpa using (ne_of_lt (lt_of_le_of_lt (hhd x hx) (ht ▸ hc)))
        rw [if_pos ht, hnone, List.filter_cons, if_pos (by simpa using ht), hnone]
        rfl
      · rw [if_neg ht, List.filter_cons, if_neg (by simpa using ht)]
    · rw [if_neg hc, List.filter_cons, List.filter_cons, ih hrest]
      by_cases ht : t.created_at = c <;> by_cases hhdc : hd.created_at = c <;>
        simp [ht, hhdc]

theorem filter_foldl_insert (l acc : List Task) (c : Int)
    (hacc : acc.Pairwise (fun a b => b.created_at ≤ a.created_at)) :
    (l.foldl (fun a t => insertByCreatedDesc t a) acc).filter
        (fun x => decide (x.created_at = c)) =
      acc.filter (fun x => decide (x.created_at = c)) ++
        l.filter (fun x => decide (x.created_at = c)) := by
  induction l generalizing acc with
  | nil => simp
  | cons t rest ih =>
    rw [List.foldl_cons, ih _ (pairwise_insertByCreatedDesc t acc hacc),
      filter_insertByCreatedDesc t acc c hacc, List.filter_cons]
    by_cases ht : t.created_at = c <;> simp [ht]

theorem filter_stableSortDesc (l : List Task) (c : Int) :
    (stableSortDesc l).filter (fun x => decide (x.created_at = c)) =
      l.filter (fun x => decide (x.created_at = c)) := by
  have := filter_foldl_insert l [] c (by simp)
  simpa [stableSortDesc] using this

theorem jsSlice_sublist (l : List Task) (s e : Int) : (jsSlice l s e).Sublist l := by
  unfold jsSlice
  exact (List.drop_sublist _ _).trans (List.take_sublist _ _)

theorem jsSlice_length_le (l : List Task) (s ps : Int) (hps : 0 ≤ ps) :
    ((jsSlice l s (s + ps)).length : Int) ≤ ps := by
  unfold jsSlice
  simp only [List.length_drop, List.length_take]
  split_ifs <;> omega

theorem applyListFilters_eq_filter (f : ListFilter) (l : List Task) :
    applyListFilters f l = l.filter (fun t => matchesFilters f t) := by
  rcases f with ⟨page, page_size, sf, pf, af⟩
  rcases af with _ | a
  · rcases sf with _ | s <;> rcases pf with _ | p <;>
      simp [applyListFilters, matchesFilters, List.filter_filter]
  · by_cases hae : a = "" <;>
      rcases sf with _ | s <;> rcases pf with _ | p <;>
        simp [applyListFilters, matchesFilters, List.filter_filter, hae]

/-! ## Helper lemmas: unsubscribe -/

theorem find?_filter_ne_key (reg : Registry) (key : String) :
    (reg.filter (fun p => decide (p.1 ≠ key))).find? (fun p => decide (p.1 = key)) = none := by
  rw [List.find?_eq_none]
  intro p hp
  have := (List.mem_filter.mp hp).2
  simpa using this

theorem find?_map_replaceSubs (reg : Registry) (key : String) (subs' : List Subscriber) :
    ((reg.map (fun p => if p.1 = key then (key, subs') else p)).find?
        (fun p => decide (p.1 = key))) =
      ((reg.find? (fun p => decide (p.1 = key))).map
        (fun p => if p.1 = key then (key, subs') else p)) := by
  induction reg with
  | nil => rfl
  | cons q rest ih =>
    by_cases hq : q.1 = key
    · rw [List.map_cons, if_pos hq, List.find?_cons_of_pos _ (by simp),
        List.find?_cons_of_pos _ (by simpa using hq)]
      simp [hq]
    · rw [List.map_cons, if_neg hq, List.find?_cons_of_neg _ (by simpa using hq),
        List.find?_cons_of_neg _ (by simpa using hq), ih]

theorem filter_ne_idem (l : List Subscriber) (cb : Subscriber) :
    (l.filter (fun c => decide (c ≠ cb))).filter (fun c => decide (c ≠ cb)) =
      l.filter (fun c => decide (c ≠ cb)) := by
  rw [List.filter_filter]
  exact List.filter_congr (fun x _ => by simp)

theorem unsubscribe_found_eq (reg : Registry) (key : String) (cb : Subscriber)
    (subs : List Subscriber)
    (hfind : reg.find? (fun p => decide (p.1 = key)) = some (key, subs)) :
    unsubscribe reg key cb =
      (if (subs.filter (fun c => decide (c ≠ cb))).isEmpty then
        reg.filter (fun p => decide (p.1 ≠ key))
       else
        reg.map (fun p =>
          if p.1 = key then (key, subs.filter (fun c => decide (c ≠ cb))) else p)) := by
  rw [unsubscribe, hfind]

theorem unsubscribe_entries (reg : Registry) (key : String) (cb : Subscriber) :
    ∀ p ∈ unsubscribe reg key cb,
      (p.1 = key → cb ∉ p.2) ∧ ∀ c ∈ p.2, ∃ q ∈ reg, c ∈ q.2 := by
  intro p hp
  rcases hfind : reg.find? (fun p => decide (p.1 = key)) with _ | ⟨k0, subs⟩
  · have h1 : unsubscribe reg key cb = reg := by rw [unsubscribe, hfind]
    rw [h1] at hp
    have hnone := List.find?_eq_none.mp hfind
    exact ⟨fun hpk => absurd (by simpa using hpk) (by simpa using hnone p hp),
      fun c hc => ⟨p, hp, hc⟩⟩
  · have hk0 : k0 = key := by simpa using List.find?_some hfind
    rw [hk0] at hfind
    have hsubs_mem : (key, subs) ∈ reg := List.mem_of_find?_eq_some hfind
    rw [unsubscribe_found_eq reg key cb subs hfind] at hp
    by_cases hemp : (subs.filter (fun c => decide (c ≠ cb))).isEmpty
    · rw [if_pos hemp] at hp
      have := (List.mem_filter.mp hp).2
      exact ⟨fun hpk => absurd hpk (by simpa using this),
        fun c hc => ⟨p, (List.mem_filter.mp hp).1, hc⟩⟩
    · rw [if_neg hemp] at hp
      rcases List.mem_map.mp hp with ⟨q, hq, rfl⟩
      by_cases hqk : q.1 = key
      · rw [if_pos hqk]
        refine ⟨fun _ => ?_, fun c hc => ?_⟩
        · intro hmem
          have := (List.mem_filter.mp hmem).2
          simp at this
        · exact ⟨(key, subs), hsubs_mem, (List.mem_filter.mp hc).1⟩
      · rw [if_neg hqk]
        exact ⟨fun hpk => absurd hpk hqk, fun c hc => ⟨q, hq, hc⟩⟩

theorem unsubscribe_idem (reg : Registry) (key : String) (cb : Subscriber) :
    unsubscribe (unsubscribe reg key cb) key cb = unsubscribe reg key cb := by
  rcases hfind : reg.find? (fun p => decide (p.1 = key)) with _ | ⟨k0, subs⟩
  · have h1 : unsubscribe reg key cb = reg := by rw [unsubscribe, hfind]
    rw [h1, unsubscribe, hfind]
  · have hk0 : k0 = key := by simpa using List.find?_some hfind
    rw [hk0] at hfind
    by_cases hemp : (subs.filter (fun c => decide (c ≠ cb))).isEmpty
    · have h1 : unsubscribe reg key cb = reg.filter (fun p => decide (p.1 ≠ key)) := by
        rw [unsubscribe_found_eq reg key cb subs hfind, if_pos hemp]
      rw [h1, unsubscribe, find?_filter_ne_key]
    · have h1 : unsubscribe reg key cb =
          reg.map (fun p =>
            if p.1 = key then (key, subs.filter (fun c => decide (c ≠ cb))) else p) := by
        rw [unsubscribe_found_eq reg key cb subs hfind, if_neg hemp]
      have hfind2 : (reg.map (fun p =>
            if p.1 = key then (key, subs.filter (fun c => decide (c ≠ cb))) else p)).find?
          (fun p => decide (p.1 = key)) =
          some (key, subs.filter (fun c => decide (c ≠ cb))) := by
        rw [find?_map_replaceSubs, hfind]
        simp
      rw [h1, unsubscribe_found_eq _ key cb _ hfind2]
      simp only [filter_ne_idem]
      rw [if_neg hemp, List.map_map]
      refine congrArg (fun g => List.map g reg) ?_
      funext p
      by_cases hp : p.1 = key <;> simp [hp]

/-! ## Claims -/

/-- C1 (counterexample): the spec's seeding burst — one snapshot event per
record currently matching the subscriber's filter — is not what the session
emits: with two matching records in the store, the handler writes a single
synthetic connection-confirmation event, not two snapshots. -/
theorem subscribe_seeding_counterexample :
    (TaskServiceImpl.SubscribeTaskUpdates (some ⟨"u1", "alice"⟩) ⟨"u1", none⟩
        ⟨[("t1", ⟨"t1", "A", "dA", .PENDING, .LOW, "u1", 1, 1, none, []⟩),
          ("t2", ⟨"t2", "B", "dB", .PENDING, .LOW, "u1", 2, 2, none, []⟩)], []⟩
        ⟨1, false⟩ 100).2.2 ≠
      specSeedingBurst
        ⟨[("t1", ⟨"t1", "A", "dA", .PENDING, .LOW, "u1", 1, 1, none, []⟩),
          ("t2", ⟨"t2", "B", "dB", .PENDING, .LOW, "u1", 2, 2, none, []⟩)], []⟩ none 100 := by
  decide

/-- C1 (amended): for every authenticated subscriber, the session registers
with the registry and then synchronously emits exactly one synthetic
CREATED-typed connection-confirmation event carrying the placeholder task id
"connection" — independent of the store contents — before any real-time
events; the store's records are untouched. -/
theorem subscribe_emits_single_connection_event (user : JWTPayload)
    (req : SubscribeTaskUpdatesRequest) (st : StoreState) (cb : Subscriber) (now : Int) :
    (TaskServiceImpl.SubscribeTaskUpdates (some user) req st cb now).1 = .ok () ∧
    (TaskServiceImpl.SubscribeTaskUpdates (some user) req st cb now).2.1.registry =
      subscribeToTaskUpdates st.registry user.user_id cb req.task_ids ∧
    (TaskServiceImpl.SubscribeTaskUpdates (some user) req st cb now).2.1.tasks = st.tasks ∧
    (TaskServiceImpl.SubscribeTaskUpdates (some user) req st cb now).2.2 =
      [{ type := .CREATED, task := TaskServiceImpl.connectionTask user.user_id now,
         timestamp := now }] ∧
    (TaskServiceImpl.connectionTask user.user_id now).id = "connection" :=
  ⟨rfl, rfl, rfl, rfl, rfl⟩

/-- C2 (counterexample): a raising sink callback does not cause the code to
drop that subscription, is surfaced to the mutation (as INTERNAL), and stops
delivery: with a first subscription whose callback raises and a second healthy
one, `CreateTask` returns INTERNAL, the failing subscription is still
registered, and nothing was delivered to the remaining subscription. -/
theorem broadcast_failure_counterexample :
    (TaskServiceImpl.CreateTask (some ⟨"u9", "bob"⟩) ⟨"t", "d", none, none, none, none⟩
        ⟨[], [("u1", [⟨1, true⟩]), ("u2", [⟨2, false⟩])]⟩ "id1" 5).1 = .err .INTERNAL ∧
    ("u1", [⟨1, true⟩]) ∈
      (TaskServiceImpl.CreateTask (some ⟨"u9", "bob"⟩) ⟨"t", "d", none, none, none, none⟩
        ⟨[], [("u1", [⟨1, true⟩]), ("u2", [⟨2, false⟩])]⟩ "id1" 5).2.1.registry ∧
    (TaskServiceImpl.CreateTask (some ⟨"u9", "bob"⟩) ⟨"t", "d", none, none, none, none⟩
        ⟨[], [("u1", [⟨1, true⟩]), ("u2", [⟨2, false⟩])]⟩ "id1" 5).2.2.log = [] := by
  decide

/-- C2 (amended): broadcast never modifies the registry (a failing sink is not
removed: `createTask`/`updateTask` pass the registry through unchanged); the
stream session's sink wraps the stream write in a catch and so never raises;
and when every registered callback is non-raising — as all session sinks are —
broadcast completes without an exception and delivers the event to every
subscription whose key matches. -/
theorem broadcast_failure_behavior :
    (∀ st freshId now data,
      (DataStore.createTask st freshId now data).2.1.registry = st.registry) ∧
    (∀ st id u now, (DataStore.updateTask st id u now).2.1.registry = st.registry) ∧
    (∀ w, TaskServiceImpl.sessionSink w = .ok ()) ∧
    (∀ reg u, (∀ p ∈ reg, ∀ cb ∈ p.2, cb.raises = false) →
      (notifyTaskUpdate reg u).raised = false ∧
      ∀ p ∈ reg, keyMatches p.1 u.task.id = true →
        ∀ cb ∈ p.2, (p.1, cb.cbId, u) ∈ (notifyTaskUpdate reg u).log) := by
  refine ⟨fun st freshId now data => rfl, ?_, ?_, ?_⟩
  · intro st id u now
    unfold DataStore.updateTask
    cases mapGet st.tasks id <;> rfl
  · intro w
    rcases w with e | ⟨⟩ <;> rfl
  · intro reg u h
    exact notifyTaskUpdate_no_raise reg u h

theorem broadcast_failure_behavior_witness :
    (notifyTaskUpdate [("u1", [⟨1, false⟩])]
        { type := .CREATED, task := TaskServiceImpl.connectionTask "u1" 0,
          timestamp := 0 }).raised = false :=
  (broadcast_failure_behavior.2.2.2 [("u1", [⟨1, false⟩])]
    { type := .CREATED, task := TaskServiceImpl.connectionTask "u1" 0, timestamp := 0 }
    (by decide)).1

/-- C3: a subscription registered under an explicit identifier set is never
delivered an event whose task id is outside that set (for the identifiers the
system actually produces — no ':' in the caller id, no ':' or ',' in task
ids), and a subscription registered with no explicit set receives every
broadcast event whenever no registered callback raises (which is the case for
all session sinks). -/
theorem subscription_filter_sound (userId : String) (ids : List String)
    (hu : ':' ∉ userId.data)
    (hids : ∀ s ∈ ids, ':' ∉ s.data ∧ ',' ∉ s.data) :
    (∀ reg u e, e ∈ (notifyTaskUpdate reg u).log → e.1 = subKey userId (some ids) →
      u.task.id ∈ ids) ∧
    (∀ reg u cb subs, (subKey userId none, subs) ∈ reg → cb ∈ subs →
      (∀ p ∈ reg, ∀ c ∈ p.2, c.raises = false) →
      (subKey userId none, cb.cbId, u) ∈ (notifyTaskUpdate reg u).log) := by
  constructor
  · intro reg u e he hkey
    have hshape := notifyTaskUpdate_log_shape reg u e he
    exact keyMatches_subKey_some userId ids u.task.id hu hids (hkey ▸ hshape.1)
  · intro reg u cb subs hin hcb hall
    exact (notifyTaskUpdate_no_raise reg u hall).2 (subKey userId none, subs) hin
      (keyMatches_no_colon (subKey userId none) hu u.task.id) cb hcb

theorem subscription_filter_sound_witness :
    (subKey "u1" none, (7 : Nat),
      ({ type := .CREATED, task := TaskServiceImpl.connectionTask "x" 0, timestamp := 0 } :
        TaskUpdate)) ∈
      (notifyTaskUpdate [("u1", [⟨7, false⟩])]
        { type := .CREATED, task := TaskServiceImpl.connectionTask "x" 0,
          timestamp := 0 }).log :=
  (subscription_filter_sound "u1" ["a"] (by decide) (by decide)).2
    [("u1", [⟨7, false⟩])]
    { type := .CREATED, task := TaskServiceImpl.connectionTask "x" 0, timestamp := 0 }
    ⟨7, false⟩ [⟨7, false⟩] (by decide) (by decide) (by decide)

/-- C4: for every task present in the store, `updateTask` merges exactly the
fields present in the partial update — absent fields keep their pre-update
values, the identifier and creation timestamp never change, the modification
timestamp is re-stamped to the current time — and the merged record is both
the returned value and what the store holds afterwards under that id. -/
theorem update_merges_partial_fields (st : StoreState) (id : String) (u : TaskUpdates)
    (now : Int) (t : Task) (h : mapGet st.tasks id = some t) :
    ∃ t', (DataStore.updateTask st id u now).1 = some t' ∧
      mapGet (DataStore.updateTask st id u now).2.1.tasks id = some t' ∧
      t'.id = t.id ∧ t'.created_at = t.created_at ∧ t'.updated_at = now ∧
      (u.title = none → t'.title = t.title) ∧
      (∀ x, u.title = some x → t'.title = x) ∧
      (u.description = none → t'.description = t.description) ∧
      (∀ x, u.description = some x → t'.description = x) ∧
      (u.status = none → t'.status = t.status) ∧
      (∀ x, u.status = some x → t'.status = x) ∧
      (u.priority = none → t'.priority = t.priority) ∧
      (∀ x, u.priority = some x → t'.priority = x) ∧
      (u.assignee_id = none → t'.assignee_id = t.assignee_id) ∧
      (∀ x, u.assignee_id = some x → t'.assignee_id = x) ∧
      (u.due_date = none → t'.due_date = t.due_date) ∧
      (∀ x, u.due_date = some x → t'.due_date = some x) ∧
      (u.tags = none → t'.tags = t.tags) ∧
      (∀ x, u.tags = some x → t'.tags = x) := by
  have hrun : DataStore.updateTask st id u now =
      (some (applyUpdates t u now),
        { st with tasks := mapSet st.tasks id (applyUpdates t u now) },
        notifyTaskUpdate st.registry
          { type := .UPDATED, task := applyUpdates t u now, timestamp := now }) := by
    rw [DataStore.updateTask, h]
  refine ⟨applyUpdates t u now, by rw [hrun], ?_, rfl, rfl, rfl, ?_, ?_, ?_, ?_, ?_, ?_,
    ?_, ?_, ?_, ?_, ?_, ?_, ?_, ?_⟩
  · rw [hrun]
    exact mapGet_mapSet_self st.tasks id (applyUpdates t u now)
  · intro hx
    simp [applyUpdates, hx]
  · intro x hx
    simp [applyUpdates, hx]
  · intro hx
    simp [applyUpdates, hx]
  · intro x hx
    simp [applyUpdates, hx]
  · intro hx
    simp [applyUpdates, hx]
  · intro x hx
    simp [applyUpdates, hx]
  · intro hx
    simp [applyUpdates, hx]
  · intro x hx
    simp [applyUpdates, hx]
  · intro hx
    simp [applyUpdates, hx]
  · intro x hx
    simp [applyUpdates, hx]
  · intro hx
    simp [applyUpdates, hx]
  · intro x hx
    simp [applyUpdates, hx]
  · intro hx
    simp [applyUpdates, hx]
  · intro x hx
    simp [applyUpdates, hx]

theorem update_merges_partial_fields_witness :
    ∃ t', (DataStore.updateTask
        ⟨[("t1", ⟨"t1", "A", "dA", .PENDING, .LOW, "u1", 1, 1, none, []⟩)], []⟩
        "t1" ⟨some "B", none, none, none, none, none, none⟩ 9).1 = some t' := by
  obtain ⟨t', h1, -⟩ := update_merges_partial_fields
    ⟨[("t1", ⟨"t1", "A", "dA", .PENDING, .LOW, "u1", 1, 1, none, []⟩)], []⟩
    "t1" ⟨some "B", none, none, none, none, none, none⟩ 9
    ⟨"t1", "A", "dA", .PENDING, .LOW, "u1", 1, 1, none, []⟩ (by decide)
  exact ⟨t', h1⟩

/-- C5: a `CreateTask` call whose credential fails to resolve (absent or not
verifying, i.e. `authenticateCall` yields nothing) fails with UNAUTHENTICATED
and leaves the store state exactly unchanged, with no broadcast delivered. -/
theorem unauthenticated_create_no_mutation (verifyToken : String → Option JWTPayload)
    (metadata : List (String × List String)) (req : CreateTaskRequest)
    (st : StoreState) (freshId : String) (now : Int)
    (h : authenticateCall verifyToken metadata = none) :
    TaskServiceImpl.CreateTask (authenticateCall verifyToken metadata) req st freshId now =
      (.err .UNAUTHENTICATED, st, noBroadcast) := by
  rw [h]
  rfl

theorem unauthenticated_create_no_mutation_witness :
    TaskServiceImpl.CreateTask (authenticateCall (fun _ => none) [])
        ⟨"t", "d", none, none, none, none⟩ ⟨[], []⟩ "id1" 0 =
      (.err .UNAUTHENTICATED, ⟨[], []⟩, noBroadcast) :=
  unauthenticated_create_no_mutation (fun _ => none) [] ⟨"t", "d", none, none, none, none⟩
    ⟨[], []⟩ "id1" 0 rfl

/-- C6 (counterexample): the returned page is not ordered with ties broken by
identifier: two records with equal creation timestamps inserted in reverse
identifier order come back in insertion order ("b" before "a"), because the
sort comparator only compares timestamps and the sort is stable. -/
theorem list_order_counterexample :
    ¬ specTieBreakOrdered
      (DataStore.listTasks
        ⟨[("b", ⟨"b", "B", "dB", .PENDING, .LOW, "u1", 5, 5, none, []⟩),
          ("a", ⟨"a", "A", "dA", .PENDING, .LOW, "u1", 5, 5, none, []⟩)], []⟩
        ⟨1, 10, none, none, none⟩).tasks := by
  decide

/-- C6 (amended): the returned page is ordered by creation timestamp
descending (newest first); records with equal creation timestamps are not
reordered by identifier — the sort is stable, so within each timestamp the
filtered store sequence's order is preserved, and the output order is a
deterministic function of the record sequence and the filters. -/
theorem list_sorted_desc_stable (st : StoreState) (f : ListFilter) :
    (DataStore.listTasks st f).tasks.Pairwise (fun a b => b.created_at ≤ a.created_at) ∧
    ∀ c : Int,
      (stableSortDesc (applyListFilters f (st.tasks.map (fun p => p.2)))).filter
          (fun x => decide (x.created_at = c)) =
        (applyListFilters f (st.tasks.map (fun p => p.2))).filter
          (fun x => decide (x.created_at = c)) := by
  constructor
  · exact List.Pairwise.sublist (jsSlice_sublist _ _ _) (pairwise_stableSortDesc _)
  · intro c
    exact filter_stableSortDesc _ c

/-- C7 (counterexample): the page-size bound does not hold for every supplied
`page_size`: a negative value (here -1) escapes the `Math.min` clamp, the
negative slice end index wraps around, and the page contains one task even
though the effective page size is -1 — more than the effective page size. -/
theorem list_page_size_counterexample :
    TaskServiceImpl.ListTasks (some ⟨"u1", "alice"⟩) ⟨1, -1, none, none, none⟩
        ⟨[("t1", ⟨"t1", "A", "dA", .PENDING, .LOW, "u1", 1, 1, none, []⟩),
          ("t2", ⟨"t2", "B", "dB", .PENDING, .LOW, "u1", 2, 2, none, []⟩)], []⟩ =
      .ok { tasks := [⟨"t2", "B", "dB", .PENDING, .LOW, "u1", 2, 2, none, []⟩],
            total_count := 2, page := 1, page_size := -1 } ∧
    ¬ ((1 : Int) ≤ TaskServiceImpl.effectivePageSize (-1)) := by
  decide

/-- C7 (amended): for every `ListTasks` request with a non-negative
`page_size`, the returned page holds at most 100 tasks and at most the
effective page size (the clamp `min (page_size or 10) 100`), and `total_count`
is the number of records matching the conjunction of the supplied filters
before pagination. -/
theorem list_page_bounds (user : JWTPayload) (req : ListTasksRequest) (st : StoreState)
    (hps : 0 ≤ req.page_size) :
    ∃ res, TaskServiceImpl.ListTasks (some user) req st = .ok res ∧
      res.tasks.length ≤ 100 ∧
      (res.tasks.length : Int) ≤ TaskServiceImpl.effectivePageSize req.page_size ∧
      res.total_count =
        (st.tasks.map (fun p => p.2)).countP
          (fun t => matchesFilters
            ⟨if req.page = 0 then 1 else req.page,
             TaskServiceImpl.effectivePageSize req.page_size,
             req.status_filter, req.priority_filter, req.assignee_filter⟩ t) := by
  have hef : (0 : Int) ≤ TaskServiceImpl.effectivePageSize req.page_size := by
    unfold TaskServiceImpl.effectivePageSize
    split_ifs <;> omega
  refine ⟨_, rfl, ?_, ?_, ?_⟩
  · have h1 : ((DataStore.listTasks st
        ⟨if req.page = 0 then 1 else req.page,
         TaskServiceImpl.effectivePageSize req.page_size,
         req.status_filter, req.priority_filter, req.assignee_filter⟩).tasks.length : Int) ≤
        TaskServiceImpl.effectivePageSize req.page_size := jsSlice_length_le _ _ _ hef
    have h2 : TaskServiceImpl.effectivePageSize req.page_size ≤ 100 :=
      min_le_right _ _
    omega
  · exact jsSlice_length_le _ _ _ hef
  · show (stableSortDesc (applyListFilters _ _)).length = _
    rw [length_stableSortDesc, applyListFilters_eq_filter, List.countP_eq_length_filter]

theorem list_page_bounds_witness :
    ∃ res, TaskServiceImpl.ListTasks (some ⟨"u1", "alice"⟩) ⟨1, 200, none, none, none⟩
        ⟨[], []⟩ = .ok res ∧
      res.tasks.length ≤ 100 ∧
      (res.tasks.length : Int) ≤ TaskServiceImpl.effectivePageSize 200 ∧
      res.total_count =
        ((⟨[], []⟩ : StoreState).tasks.map (fun p => p.2)).countP
          (fun t => matchesFilters
            ⟨if (1 : Int) = 0 then 1 else 1, TaskServiceImpl.effectivePageSize 200,
             none, none, none⟩ t) :=
  list_page_bounds ⟨"u1", "alice"⟩ ⟨1, 200, none, none, none⟩ ⟨[], []⟩ (by decide)

/-- C8: the unsubscribe closure is idempotent — calling it again leaves the
registry exactly as the first call left it — the first call removes the
callback from its key's subscriber set, and no later broadcast delivers to
that callback under that key (given that callback identities are unique, as JS
closure identities are). -/
theorem unsubscribe_idempotent_removal (reg : Registry) (key : String) (cb : Subscriber)
    (huniq : ∀ p ∈ reg, ∀ c ∈ p.2, c.cbId = cb.cbId → c = cb) :
    unsubscribe (unsubscribe reg key cb) key cb = unsubscribe reg key cb ∧
    (∀ p ∈ unsubscribe reg key cb, p.1 = key → cb ∉ p.2) ∧
    (∀ u e, e ∈ (notifyTaskUpdate (unsubscribe reg key cb) u).log →
      ¬ (e.1 = key ∧ e.2.1 = cb.cbId)) := by
  refine ⟨unsubscribe_idem reg key cb, ?_, ?_⟩
  · intro p hp hpk
    exact (unsubscribe_entries reg key cb p hp).1 hpk
  · rintro u e he ⟨hek, heid⟩
    rcases notifyTaskUpdate_log_shape _ u e he with ⟨-, -, subs, hsin, c, hcin, hcid⟩
    have hc : c = cb := by
      rcases (unsubscribe_entries reg key cb _ hsin).2 c hcin with ⟨q, hq, hcq⟩
      exact huniq q hq c hcq (by rw [hcid, heid])
    have hnotin : cb ∉ subs := (unsubscribe_entries reg key cb _ hsin).1 hek
    exact hnotin (hc ▸ hcin)

theorem unsubscribe_idempotent_removal_witness :
    unsubscribe (unsubscribe [("u1", [⟨1, false⟩])] "u1" ⟨1, false⟩) "u1" ⟨1, false⟩ =
      unsubscribe [("u1", [⟨1, false⟩])] "u1" ⟨1, false⟩ :=
  (unsubscribe_idempotent_removal [("u1", [⟨1, false⟩])] "u1" ⟨1, false⟩ (by decide)).1

/-- C9: a subscriber that registers with an explicit but empty task-identifier
list is keyed as a filtered subscription (`userId ++ ":"`) whose match test
fails for every task id, so no broadcast ever logs a delivery under that key:
an empty explicit set is not treated as "no filter". -/
theorem empty_filter_matches_nothing (userId : String) (h : ':' ∉ userId.data) :
    (∀ tid, keyMatches (subKey userId (some [])) tid = false) ∧
    (∀ reg cb u e,
      e ∈ (notifyTaskUpdate (subscribeToTaskUpdates reg userId cb (some [])) u).log →
      e.1 ≠ subKey userId (some [])) := by
  constructor
  · exact keyMatches_subKey_empty userId h
  · intro reg cb u e he hek
    have hmatch := (notifyTaskUpdate_log_shape _ u e he).1
    rw [hek, keyMatches_subKey_empty userId h u.task.id] at hmatch
    exact Bool.false_ne_true hmatch

theorem empty_filter_matches_nothing_witness :
    keyMatches (subKey "u1" (some [])) "t1" = false :=
  (empty_filter_matches_nothing "u1" (by decide)).1 "t1"

/-- C10: every successful `CreateTask` stores (and returns) a record whose
status is PENDING regardless of the request, whose priority defaults to MEDIUM
when absent from the request, and whose tags default to the empty list when
absent. -/
theorem create_defaults (user : JWTPayload) (req : CreateTaskRequest) (st : StoreState)
    (freshId : String) (now : Int) (t : Task)
    (h : (TaskServiceImpl.CreateTask (some user) req st freshId now).1 = .ok t) :
    t.status = .PENDING ∧
    t.priority = req.priority.getD .MEDIUM ∧
    t.tags = req.tags.getD [] ∧
    mapGet (TaskServiceImpl.CreateTask (some user) req st freshId now).2.1.tasks freshId
      = some t := by
  simp only [TaskServiceImpl.CreateTask, DataStore.createTask] at h ⊢
  split at h
  · exact absurd h (by simp)
  · split at h
    · exact absurd h (by simp)
    · next hv hr =>
      simp only [SvcResult.ok.injEq] at h
      subst h
      rw [if_neg hv, if_neg hr]
      exact ⟨rfl, rfl, rfl, mapGet_mapSet_self st.tasks freshId _⟩

theorem create_defaults_witness :
    (⟨"id1", "t", "d", .PENDING, .HIGH, "u1", 7, 7, none, ["x"]⟩ : Task).status = .PENDING ∧
    (⟨"id1", "t", "d", .PENDING, .HIGH, "u1", 7, 7, none, ["x"]⟩ : Task).priority =
      (some TaskPriority.HIGH).getD .MEDIUM ∧
    (⟨"id1", "t", "d", .PENDING, .HIGH, "u1", 7, 7, none, ["x"]⟩ : Task).tags =
      (some ["x"]).getD [] ∧
    mapGet (TaskServiceImpl.CreateTask (some ⟨"u1", "alice"⟩)
        ⟨"t", "d", some .HIGH, none, none, some ["x"]⟩ ⟨[], []⟩ "id1" 7).2.1.tasks "id1"
      = some ⟨"id1", "t", "d", .PENDING, .HIGH, "u1", 7, 7, none, ["x"]⟩ :=
  create_defaults ⟨"u1", "alice"⟩ ⟨"t", "d", some .HIGH, none, none, some ["x"]⟩
    ⟨[], []⟩ "id1" 7 ⟨"id1", "t", "d", .PENDING, .HIGH, "u1", 7, 7, none, ["x"]⟩ (by decide)

end TaskManager
